import Mathlib

/-!
Shallow embedding of `src/app.py` ("A la potencia de..." Streamlit classroom demo).

The app computes powers a^g, formats them with a short Spanish notation
(`format_grande`), lays out a^g tiles per generation in parent-grouped rows
(`layout_columna_horizontal`), draws a sampled subset of tiles and, when small
enough, one arrow per child from its parent, and navigates generations with
two buttons.

Python floats are modelled by exact rationals (`ℚ`); every concrete value the
theorems below evaluate is exactly representable as a binary double, so the
rational model agrees with the Python float computation there.  Python ints
are `ℕ`/`ℤ` (Python ints are unbounded, so no wrap-around is modelled).
-/

namespace PotenciaApp

/-- Model of `math.ceil(p / t)` for nonnegative integers `p` and positive `t`
(`app.py` uses it at lines 69-70 with arguments small enough that the float
division is exact up to the ceiling). -/
def ceilDiv (p t : ℕ) : ℕ := (p + t - 1) / t

/-- Round half to even (Python's `round`), on rationals. -/
def rhe (q : ℚ) : ℤ :=
  let f := ⌊q⌋
  let r := q - (f : ℚ)
  if r < 1/2 then f
  else if 1/2 < r then f + 1
  else if f % 2 = 0 then f else f + 1

/-- Two-digit zero padding for the fractional part of a `%.2f` format. -/
def pad2 (m : ℤ) : String := (if m < 10 then "0" else "") ++ toString m

/-- Python `f"{v:.2f}"` for nonnegative `v` (round half to even at 2 decimals). -/
def fmt2 (v : ℚ) : String :=
  let c := rhe (v * 100)
  toString (c / 100) ++ "." ++ pad2 (c % 100)

/-- Python `f"{v:.1f}"` for nonnegative `v` (round half to even at 1 decimal). -/
def fmt1 (v : ℚ) : String :=
  let c := rhe (v * 10)
  toString (c / 10) ++ "." ++ toString (c % 10)

/-- The body of the threshold loop in `format_grande` (app.py lines 40-46):
`v = n / d`, then 2 decimals below 10 units, 1 decimal below 100 units,
else `int(round(v))`, followed by the unit name. -/
def fmt_unidad (n d : ℕ) (nombre : String) : String :=
  let v : ℚ := (n : ℚ) / (d : ℚ)
  let s := if v < 10 then fmt2 v
           else if v < 100 then fmt1 v
           else toString (rhe v)
  s ++ " " ++ nombre

/-- The scientific fallback of `format_grande` (app.py lines 47-48):
`exp = int(math.log10(n)); f"{n/10**exp:.2f}e{exp}"`.  (For integer `n` this
line is unreachable, since every `n >= 1000` matches the `10**3` threshold.) -/
def cientifica (n : ℕ) : String :=
  let e := Nat.log 10 n
  fmt2 ((n : ℚ) / (10 : ℚ) ^ e) ++ "e" ++ toString e

/-- Model of `format_grande` on nonnegative ints: the `n < 1_000` early return, then the
threshold loop over `[(10^12, "billón"), (10^9, "mil millones"),
(10^6, "millón"), (10^3, "mil")]`, returning on the first `n >= d`. -/
def format_grande_nat (n : ℕ) : String :=
  if n < 1000 then toString n
  else if 10 ^ 12 ≤ n then fmt_unidad n (10 ^ 12) "billón"
  else if 10 ^ 9 ≤ n then fmt_unidad n (10 ^ 9) "mil millones"
  else if 10 ^ 6 ≤ n then fmt_unidad n (10 ^ 6) "millón"
  else if 10 ^ 3 ≤ n then fmt_unidad n (10 ^ 3) "mil"
  else cientifica n

/-- Model of `format_grande(n)` (app.py lines 34-48).  The negative branch
`"-" + format_grande(-n)` recurses on `-n ≥ 0`, which lands in the
nonnegative cases, so it is unfolded to `format_grande_nat` directly. -/
def format_grande (n : ℤ) : String :=
  if n < 0 then "-" ++ format_grande_nat (-n).toNat
  else format_grande_nat n.toNat

lemma rhe_intCast (z : ℤ) : rhe (z : ℚ) = z := by
  unfold rhe
  simp


lemma format_grande_natCast (n : ℕ) : format_grande (n : ℤ) = format_grande_nat n := by
  unfold format_grande
  rw [if_neg (by simp), Int.toNat_natCast]

/-- Claim C3: for every integer `n` with `0 ≤ n < 1000`, `format_grande(n)` returns
exactly the literal decimal digits of `n`; in particular
`format_grande(27) = "27"`. -/
theorem claim_C3 (n : ℕ) (h : n < 1000) :
    format_grande (n : ℤ) = toString n ∧ format_grande 27 = "27" := by
  constructor
  · rw [format_grande_natCast]
    unfold format_grande_nat
    rw [if_pos h]
  · decide

theorem claim_C3_witness :
    27 < 1000 ∧ (format_grande ((27 : ℕ) : ℤ) = toString (27 : ℕ) ∧ format_grande 27 = "27") :=
  ⟨by decide, claim_C3 27 (by decide)⟩

/-- Claim C4: the call `format_grande(1_500_000)` returns `"1.50 millón"`: a 2-decimal
value followed by the million-magnitude unit name (the Spanish locale
equivalent of the spec's "1.50 miljoen"). -/
theorem claim_C4 : format_grande 1500000 = "1.50 millón" := by
  rw [show (1500000 : ℤ) = ((1500000 : ℕ) : ℤ) from rfl, format_grande_natCast]
  have h1 : format_grande_nat 1500000 = fmt_unidad 1500000 (10 ^ 6) "millón" := by
    unfold format_grande_nat
    norm_num
  have h2 : fmt_unidad 1500000 (10 ^ 6) "millón" = fmt2 ((3:ℚ)/2) ++ " " ++ "millón" := by
    unfold fmt_unidad
    rw [show ((1500000 : ℕ) : ℚ) / (((10:ℕ) ^ 6 : ℕ) : ℚ) = ((3:ℚ)/2) from by norm_num]
    norm_num
  have h3 : fmt2 ((3:ℚ)/2) = "1.50" := by
    unfold fmt2
    rw [show ((3:ℚ)/2 * 100) = ((150 : ℤ) : ℚ) from by norm_num, rhe_intCast]
    decide
  rw [h1, h2, h3]
  rfl

/-- Claim C5, counterexample: at `n = 10^15` (beyond the largest named threshold
`10^12`), `format_grande` does NOT fall back to a scientific-notation string
`"d.dde<exp>"`: it returns `"1000 billón"`, which contains no `'e'` at all
(the first threshold test `n >= 10**12` already matches). -/
theorem claim_C5_counterexample :
    format_grande (10 ^ 15) = "1000 billón" ∧
    'e' ∉ (format_grande (10 ^ 15)).data := by
  have hc : (10 ^ 15 : ℤ) = ((10 ^ 15 : ℕ) : ℤ) := by norm_cast
  have h1 : format_grande_nat (10 ^ 15) = fmt_unidad (10 ^ 15) (10 ^ 12) "billón" := by
    unfold format_grande_nat
    norm_num
  have hr : rhe (1000 : ℚ) = 1000 := by
    rw [show (1000 : ℚ) = ((1000 : ℤ) : ℚ) from by norm_num]
    exact rhe_intCast 1000
  have h2 : fmt_unidad (10 ^ 15) (10 ^ 12) "billón" = "1000 billón" := by
    unfold fmt_unidad
    rw [show (((10 ^ 15 : ℕ)) : ℚ) / (((10:ℕ) ^ 12 : ℕ) : ℚ) = ((1000 : ℚ)) from by
      norm_num]
    norm_num [hr]
    rfl
  have h : format_grande (10 ^ 15) = "1000 billón" := by
    rw [hc, format_grande_natCast, h1, h2]
  refine ⟨h, ?_⟩
  rw [h]
  decide

/-- Claim C5, amended: `format_grande` uses the thresholds `mil`/`millón`/
`mil millones`/`billón`; every integer `n ≥ 1000` matches one of them (largest
first), so for every `n ≥ 10^12` — with no upper limit — the result is a
`billón`-unit string, and the scientific-notation fallback is unreachable for
integers. -/
theorem claim_C5 (n : ℕ) (h : 1000 ≤ n) :
    (10 ^ 12 ≤ n → format_grande_nat n = fmt_unidad n (10 ^ 12) "billón") ∧
    (10 ^ 9 ≤ n → n < 10 ^ 12 → format_grande_nat n = fmt_unidad n (10 ^ 9) "mil millones") ∧
    (10 ^ 6 ≤ n → n < 10 ^ 9 → format_grande_nat n = fmt_unidad n (10 ^ 6) "millón") ∧
    (n < 10 ^ 6 → format_grande_nat n = fmt_unidad n (10 ^ 3) "mil") := by
  have e12 : (10 : ℕ) ^ 12 = 1000000000000 := by norm_num
  have e9 : (10 : ℕ) ^ 9 = 1000000000 := by norm_num
  have e6 : (10 : ℕ) ^ 6 = 1000000 := by norm_num
  have e3 : (10 : ℕ) ^ 3 = 1000 := by norm_num
  refine ⟨fun h12 => ?_, fun h9 h12 => ?_, fun h6 h9 => ?_, fun h6 => ?_⟩
  · unfold format_grande_nat
    rw [if_neg (by omega), if_pos h12]
  · unfold format_grande_nat
    rw [if_neg (by omega), if_neg (by rw [e12]; rw [e12] at h12; omega), if_pos h9]
  · unfold format_grande_nat
    rw [if_neg (by omega), if_neg (by rw [e12]; rw [e9] at h9; omega),
      if_neg (by rw [e9]; rw [e9] at h9; omega), if_pos h6]
  · unfold format_grande_nat
    rw [if_neg (by omega), if_neg (by rw [e12]; rw [e6] at h6; omega),
      if_neg (by rw [e9]; rw [e6] at h6; omega), if_neg (by rw [e6]; rw [e6] at h6; omega),
      if_pos (by rw [e3]; omega)]

theorem claim_C5_witness :
    1000 ≤ 10 ^ 15 ∧
    ((10 ^ 12 ≤ 10 ^ 15 → format_grande_nat (10 ^ 15) = fmt_unidad (10 ^ 15) (10 ^ 12) "billón") ∧
     (10 ^ 9 ≤ 10 ^ 15 → 10 ^ 15 < 10 ^ 12 →
        format_grande_nat (10 ^ 15) = fmt_unidad (10 ^ 15) (10 ^ 9) "mil millones") ∧
     (10 ^ 6 ≤ 10 ^ 15 → 10 ^ 15 < 10 ^ 9 →
        format_grande_nat (10 ^ 15) = fmt_unidad (10 ^ 15) (10 ^ 6) "millón") ∧
     (10 ^ 15 < 10 ^ 6 → format_grande_nat (10 ^ 15) = fmt_unidad (10 ^ 15) (10 ^ 3) "mil")) :=
  ⟨by norm_num, claim_C5 (10 ^ 15) (by norm_num)⟩

/-! ### Layout (`layout_columna_horizontal`, app.py lines 50-101)

Drawing-parameter constants of app.py lines 148-155. -/

def ARROW_LIMIT : ℕ := 350
def ITEM_LIMIT : ℕ := 6000
def ROWS_TARGET : ℕ := 6
def x_gap_cols : ℚ := 12/10

/-- Default `gap_item=0.012` of `layout_columna_horizontal` (never overridden
by the app). -/
def gap_item : ℚ := 12/1000

/-- Default `gap_grupo_x=0.05` (never overridden by the app). -/
def gap_grupo_x : ℚ := 5/100

/-- Default `gap_grupo_y=0.06` (never overridden by the app). -/
def gap_grupo_y : ℚ := 6/100

/-- Source line `padres = a**(g-1)` (number of parent groups; the app only calls this with
`g ≥ 1`, where Python's `g-1` agrees with truncated subtraction). -/
def padres (a g : ℕ) : ℕ := a ^ (g - 1)

/-- Source line `grupos_por_fila = max(1, math.ceil(padres / target_filas))`. -/
def grupos_por_fila (a g t : ℕ) : ℕ := max 1 (ceilDiv (padres a g) t)

/-- Source line `filas = math.ceil(padres / grupos_por_fila)`. -/
def filas (a g t : ℕ) : ℕ := ceilDiv (padres a g) (grupos_por_fila a g t)

/-- Source line `alto_por_fila = (1.0 - (filas - 1) * gap_grupo_y) / max(1, filas)`. -/
def alto_por_fila (a g t : ℕ) : ℚ :=
  (1 - ((filas a g t : ℚ) - 1) * gap_grupo_y) / ((max 1 (filas a g t) : ℕ) : ℚ)

/-- Source line `tile_h = max(0.012, alto_por_fila * 0.55)`. -/
def tile_h (a g t : ℕ) : ℚ := max (12/1000) (alto_por_fila a g t * (55/100))

/-- Source line `tile_w = tile_h` (square tiles). -/
def tile_w (a g t : ℕ) : ℚ := tile_h a g t

/-- Source line `ancho_grupo = a * tile_w + (a - 1) * gap_item`. -/
def ancho_grupo (a g t : ℕ) : ℚ :=
  (a : ℚ) * tile_w a g t + ((a : ℚ) - 1) * gap_item

/-- Source line `ancho_total = grupos_por_fila * ancho_grupo + (grupos_por_fila - 1) * gap_grupo_x`. -/
def ancho_total (a g t : ℕ) : ℚ :=
  (grupos_por_fila a g t : ℚ) * ancho_grupo a g t +
    ((grupos_por_fila a g t : ℚ) - 1) * gap_grupo_x

/-- Source line `alto_total = filas * tile_h + (filas - 1) * gap_grupo_y`. -/
def alto_total (a g t : ℕ) : ℚ :=
  (filas a g t : ℚ) * tile_h a g t + ((filas a g t : ℚ) - 1) * gap_grupo_y

/-- The centre `(cx, cy)` of child `k` of parent `idx_padre` (app.py lines
85-97): `fila = idx_padre // grupos_por_fila`, `col = idx_padre %
grupos_por_fila`, `gx0 = col * (ancho_grupo + gap_grupo_x)`,
`gy0 = fila * (tile_h + gap_grupo_y)`,
`cx = gx0 + k * (tile_w + gap_item) + tile_w / 2`, `cy = gy0 + tile_h / 2`. -/
def centro (a g t idx_padre k : ℕ) : ℚ × ℚ :=
  let fila := idx_padre / grupos_por_fila a g t
  let col := idx_padre % grupos_por_fila a g t
  let gx0 := (col : ℚ) * (ancho_grupo a g t + gap_grupo_x)
  let gy0 := (fila : ℚ) * (tile_h a g t + gap_grupo_y)
  (gx0 + (k : ℚ) * (tile_w a g t + gap_item) + tile_w a g t / 2,
   gy0 + tile_h a g t / 2)

/-- The return value of `layout_columna_horizontal` (app.py line 101). -/
structure Layout where
  child_centers_by_parent : List (List (ℚ × ℚ))
  item_centers : List (ℚ × ℚ)
  tile_w : ℚ
  tile_h : ℚ
  ancho_total : ℚ
  alto_total : ℚ
  filas : ℕ
  grupos_por_fila : ℕ

/-- Model of `layout_columna_horizontal(a, g, target_filas=t)`: the double loop of
lines 85-99 appends, for each `idx_padre < padres` and each `k < a`, the
centre `centro a g t idx_padre k` to both the per-parent list and the flat
`item_centers` list. -/
def layout_columna_horizontal (a g t : ℕ) : Layout :=
  { child_centers_by_parent :=
      (List.range (padres a g)).map (fun p => (List.range a).map (centro a g t p))
    item_centers :=
      (List.range (padres a g)).flatMap (fun p => (List.range a).map (centro a g t p))
    tile_w := tile_w a g t
    tile_h := tile_h a g t
    ancho_total := ancho_total a g t
    alto_total := alto_total a g t
    filas := filas a g t
    grupos_por_fila := grupos_por_fila a g t }

/-- A flat double loop over `p < N`, `k < a` enumerates `j < N*a` with
`p = j / a`, `k = j % a`. -/
lemma range_flatMap_eq {β : Type} (F : ℕ → ℕ → β) (N a : ℕ) :
    (List.range N).flatMap (fun p => (List.range a).map (F p)) =
      (List.range (N * a)).map (fun j => F (j / a) (j % a)) := by
  rcases Nat.eq_zero_or_pos a with ha | ha
  · subst ha
    induction N with
    | zero => simp
    | succ N ih => simp_all [List.range_succ]
  · induction N with
    | zero => simp
    | succ N ih =>
      rw [List.range_succ, List.flatMap_append, ih, Nat.succ_mul, List.range_add,
        List.map_append, List.map_map]
      congr 1
      · simp only [List.flatMap_cons, List.flatMap_nil, List.append_nil]
        apply List.map_congr_left
        intro k hk
        rw [List.mem_range] at hk
        have hdiv : (N * a + k) / a = N := by
          rw [Nat.add_comm, Nat.mul_comm, Nat.add_mul_div_left _ _ ha,
            Nat.div_eq_of_lt hk, Nat.zero_add]
        have hmod : (N * a + k) % a = k := by
          rw [Nat.add_comm, Nat.mul_comm, Nat.add_mul_mod_self_left,
            Nat.mod_eq_of_lt hk]
        simp [Function.comp, hdiv, hmod]

lemma item_centers_eq (a g t : ℕ) :
    (layout_columna_horizontal a g t).item_centers =
      (List.range (padres a g * a)).map (fun j => centro a g t (j / a) (j % a)) := by
  show (List.range (padres a g)).flatMap (fun p => (List.range a).map (centro a g t p)) = _
  exact range_flatMap_eq (centro a g t) (padres a g) a

lemma length_item_centers (a g t : ℕ) (hg : 1 ≤ g) :
    (layout_columna_horizontal a g t).item_centers.length = a ^ g := by
  rw [item_centers_eq, List.length_map, List.length_range]
  show a ^ (g - 1) * a = a ^ g
  rw [← pow_succ]
  congr 1
  omega

/-- Claim C1: for every base `a ∈ [2,10]` and generation `g ≥ 1`,
`layout_columna_horizontal(a, g)` returns an `item_centers` list with exactly
`a^g` entries; the per-generation counts satisfy `count(g) = a * count(g-1)`;
and base 3 with exponent 3 yields the sequence `[3, 9, 27]`. -/
theorem claim_C1 (a g : ℕ) (ha : 2 ≤ a) (ha' : a ≤ 10) (hg : 1 ≤ g) :
    (layout_columna_horizontal a g ROWS_TARGET).item_centers.length = a ^ g ∧
    (2 ≤ g →
      (layout_columna_horizontal a g ROWS_TARGET).item_centers.length =
        a * (layout_columna_horizontal a (g - 1) ROWS_TARGET).item_centers.length) ∧
    ((layout_columna_horizontal 3 1 ROWS_TARGET).item_centers.length = 3 ∧
     (layout_columna_horizontal 3 2 ROWS_TARGET).item_centers.length = 9 ∧
     (layout_columna_horizontal 3 3 ROWS_TARGET).item_centers.length = 27) := by
  refine ⟨length_item_centers a g ROWS_TARGET hg, fun hg2 => ?_, ?_, ?_, ?_⟩
  · rw [length_item_centers a g ROWS_TARGET hg,
      length_item_centers a (g - 1) ROWS_TARGET (by omega)]
    rw [← pow_succ']
    congr 1
    omega
  · rw [length_item_centers 3 1 ROWS_TARGET (by norm_num)]; norm_num
  · rw [length_item_centers 3 2 ROWS_TARGET (by norm_num)]; norm_num
  · rw [length_item_centers 3 3 ROWS_TARGET (by norm_num)]; norm_num

theorem claim_C1_witness :
    (2 ≤ 3 ∧ 3 ≤ 10 ∧ 1 ≤ 3) ∧
    ((layout_columna_horizontal 3 3 ROWS_TARGET).item_centers.length = 3 ^ 3 ∧
     (2 ≤ 3 →
       (layout_columna_horizontal 3 3 ROWS_TARGET).item_centers.length =
         3 * (layout_columna_horizontal 3 (3 - 1) ROWS_TARGET).item_centers.length) ∧
     ((layout_columna_horizontal 3 1 ROWS_TARGET).item_centers.length = 3 ∧
      (layout_columna_horizontal 3 2 ROWS_TARGET).item_centers.length = 9 ∧
      (layout_columna_horizontal 3 3 ROWS_TARGET).item_centers.length = 27)) :=
  ⟨by norm_num, claim_C1 3 3 (by norm_num) (by norm_num) (by norm_num)⟩

/-- Claim C7: for every base `a ∈ [2,10]`, exponent `b ∈ [1,12]` (the
`number_input` widget bounds, app.py lines 115/117), and generation
`1 ≤ g ≤ b`, the computed count `a^g` (the length of the laid-out column) is
at most `10^12`, which fits in a signed 64-bit machine integer. -/
theorem claim_C7 (a b g : ℕ) (ha : 2 ≤ a) (ha' : a ≤ 10) (hb : 1 ≤ b) (hb' : b ≤ 12)
    (hg : 1 ≤ g) (hg' : g ≤ b) :
    (layout_columna_horizontal a g ROWS_TARGET).item_centers.length ≤ 10 ^ 12 ∧
    (layout_columna_horizontal a g ROWS_TARGET).item_centers.length < 2 ^ 63 := by
  have h := length_item_centers a g ROWS_TARGET hg
  have hle : a ^ g ≤ 10 ^ 12 := by
    calc a ^ g ≤ 10 ^ g := Nat.pow_le_pow_left ha' g
    _ ≤ 10 ^ 12 := Nat.pow_le_pow_right (by norm_num) (by omega)
  constructor
  · rw [h]; exact hle
  · rw [h]
    calc a ^ g ≤ 10 ^ 12 := hle
    _ < 2 ^ 63 := by norm_num

theorem claim_C7_witness :
    (2 ≤ 10 ∧ 10 ≤ 10 ∧ 1 ≤ 12 ∧ 12 ≤ 12 ∧ 1 ≤ 12 ∧ 12 ≤ 12) ∧
    ((layout_columna_horizontal 10 12 ROWS_TARGET).item_centers.length ≤ 10 ^ 12 ∧
     (layout_columna_horizontal 10 12 ROWS_TARGET).item_centers.length < 2 ^ 63) :=
  ⟨by norm_num,
   claim_C7 10 12 12 (by norm_num) (by norm_num) (by norm_num) (by norm_num)
     (by norm_num) (by norm_num)⟩

/-! ### Button navigation (app.py lines 140-143) -/

/-- One rerun's navigation update: `if btn_prev and current_gen > 1:
current_gen -= 1`, then `if btn_next and current_gen < int(b):
current_gen += 1` (sequential, the second test sees the updated value). -/
def nav_step (b : ℕ) (btn_prev btn_next : Bool) (cur : ℕ) : ℕ :=
  let cur1 := if btn_prev ∧ 1 < cur then cur - 1 else cur
  if btn_next ∧ cur1 < b then cur1 + 1 else cur1

/-- Claim C8: from any session state with `1 ≤ current_gen ≤ b`, each
button-driven step preserves `1 ≤ current_gen ≤ b`; `Anterior` decrements only
when `current_gen > 1`, `Siguiente` increments only when `current_gen < b`,
and with no button pressed `current_gen` is unchanged. -/
theorem claim_C8 (b : ℕ) (p n : Bool) (cur : ℕ) (h1 : 1 ≤ cur) (h2 : cur ≤ b) :
    (1 ≤ nav_step b p n cur ∧ nav_step b p n cur ≤ b) ∧
    (nav_step b true false cur = if 1 < cur then cur - 1 else cur) ∧
    (nav_step b false true cur = if cur < b then cur + 1 else cur) ∧
    nav_step b false false cur = cur := by
  cases p <;> cases n <;> simp [nav_step] <;>
    first
      | omega
      | (split_ifs <;> omega)

theorem claim_C8_witness :
    (1 ≤ 2 ∧ 2 ≤ 3) ∧
    ((1 ≤ nav_step 3 true false 2 ∧ nav_step 3 true false 2 ≤ 3) ∧
     (nav_step 3 true false 2 = if 1 < 2 then 2 - 1 else 2) ∧
     (nav_step 3 false true 2 = if 2 < 3 then 2 + 1 else 2) ∧
     nav_step 3 false false 2 = 2) :=
  ⟨by norm_num, claim_C8 3 true false 2 (by norm_num) (by norm_num)⟩

/-! ### C6: tile size vs. the ITEM_LIMIT display budget -/

/-- The tile side as a function of the row count alone (the body of
`tile_h`; `layout_columna_horizontal` feeds it nothing else). -/
def tile_of_filas (f : ℕ) : ℚ :=
  max (12/1000) ((1 - ((f : ℚ) - 1) * gap_grupo_y) / ((max 1 f : ℕ) : ℚ) * (55/100))

lemma one_le_padres (a g : ℕ) (ha : 1 ≤ a) : 1 ≤ padres a g :=
  Nat.one_le_pow _ _ ha

lemma filas_le_ROWS_TARGET (a g : ℕ) (ha : 1 ≤ a) : filas a g ROWS_TARGET ≤ ROWS_TARGET := by
  have hp : 1 ≤ padres a g := one_le_padres a g ha
  unfold filas grupos_por_fila ceilDiv ROWS_TARGET
  set p := padres a g with hpdef
  have hq : (p + 6 - 1) / 6 ≥ 1 := by omega
  have hmax : max 1 ((p + 6 - 1) / 6) = (p + 6 - 1) / 6 := by omega
  rw [hmax]
  set q := (p + 6 - 1) / 6 with hqdef
  have hpq : p ≤ 6 * q := by omega
  have : (p + q - 1) / q < 7 := by
    rw [Nat.div_lt_iff_lt_mul (by omega)]
    omega
  omega

/-- Claim C6, counterexample: the claim "tile size for an over-budget generation
is strictly smaller than for a within-budget generation" is false: at base 2,
generation 13 has `2^13 = 8192 > ITEM_LIMIT` items and generation 12 has
`2^12 = 4096 ≤ ITEM_LIMIT` items, yet both layouts use exactly the same
`tile_w = tile_h` (both have 6 rows). -/
theorem claim_C6_counterexample :
    (layout_columna_horizontal 2 13 ROWS_TARGET).item_centers.length = 2 ^ 13 ∧
    (layout_columna_horizontal 2 12 ROWS_TARGET).item_centers.length = 2 ^ 12 ∧
    ITEM_LIMIT < 2 ^ 13 ∧ 2 ^ 12 ≤ ITEM_LIMIT ∧
    (layout_columna_horizontal 2 13 ROWS_TARGET).tile_h =
      (layout_columna_horizontal 2 12 ROWS_TARGET).tile_h ∧
    (layout_columna_horizontal 2 13 ROWS_TARGET).tile_w =
      (layout_columna_horizontal 2 12 ROWS_TARGET).tile_w := by
  have hf13 : filas 2 13 ROWS_TARGET = 6 := by decide
  have hf12 : filas 2 12 ROWS_TARGET = 6 := by decide
  have hth : tile_h 2 13 ROWS_TARGET = tile_h 2 12 ROWS_TARGET := by
    unfold tile_h alto_por_fila
    rw [hf13, hf12]
  refine ⟨length_item_centers 2 13 ROWS_TARGET (by norm_num),
    length_item_centers 2 12 ROWS_TARGET (by norm_num),
    by norm_num [ITEM_LIMIT], by norm_num [ITEM_LIMIT], hth, hth⟩

/-- Claim C6, amended: exceeding the display budget `ITEM_LIMIT` does not shrink
the tiles: the tile size returned by the layout is a function of the row count
`filas` alone, `filas` is capped at `ROWS_TARGET = 6`, and the tile side never
drops below the fixed floor `77/1200` (its value at 6 rows) no matter how
large `a^g` grows.  (Over-budget point counts are handled by index sampling in
the drawing loop instead; see C9.) -/
theorem claim_C6 (a g : ℕ) (ha : 2 ≤ a) (ha' : a ≤ 10) (hg : 1 ≤ g) :
    (layout_columna_horizontal a g ROWS_TARGET).filas ≤ ROWS_TARGET ∧
    (layout_columna_horizontal a g ROWS_TARGET).tile_h =
      tile_of_filas (layout_columna_horizontal a g ROWS_TARGET).filas ∧
    (77/1200 : ℚ) ≤ (layout_columna_horizontal a g ROWS_TARGET).tile_h := by
  have hle : filas a g ROWS_TARGET ≤ ROWS_TARGET := filas_le_ROWS_TARGET a g (by omega)
  refine ⟨hle, rfl, ?_⟩
  show (77/1200 : ℚ) ≤ tile_h a g ROWS_TARGET
  have heq : tile_h a g ROWS_TARGET = tile_of_filas (filas a g ROWS_TARGET) := rfl
  rw [heq]
  have h6 : filas a g ROWS_TARGET ≤ 6 := hle
  set f := filas a g ROWS_TARGET with hf
  clear_value f
  interval_cases f <;> norm_num [tile_of_filas, gap_grupo_y, le_max_iff]

theorem claim_C6_witness :
    (2 ≤ 2 ∧ 2 ≤ 10 ∧ 1 ≤ 13) ∧
    ((layout_columna_horizontal 2 13 ROWS_TARGET).filas ≤ ROWS_TARGET ∧
     (layout_columna_horizontal 2 13 ROWS_TARGET).tile_h =
       tile_of_filas (layout_columna_horizontal 2 13 ROWS_TARGET).filas ∧
     (77/1200 : ℚ) ≤ (layout_columna_horizontal 2 13 ROWS_TARGET).tile_h) :=
  ⟨by norm_num, claim_C6 2 13 (by norm_num) (by norm_num) (by norm_num)⟩

/-! ### C9: the sampling (muestreo) drawing loop, app.py lines 198-219 -/

/-- Source lines `muestreo = 1; if total_items > ITEM_LIMIT: muestreo =
math.ceil(total_items / ITEM_LIMIT)` with `total_items = a**g`. -/
def muestreo (a g : ℕ) : ℕ :=
  if ITEM_LIMIT < a ^ g then ceilDiv (a ^ g) ITEM_LIMIT else 1

/-- The number of shapes drawn for column `g`: the loop
`for p_idx, hijos in enumerate(child_by_parent): for k, (cx, cy) in
enumerate(hijos):` skips `abs_index = p_idx * a + k` unless
`abs_index % muestreo == 0`, incrementing `dibujados` otherwise. -/
def dibujados (a g : ℕ) : ℕ :=
  (((layout_columna_horizontal a g ROWS_TARGET).child_centers_by_parent.enum.map
    (fun ph => ph.2.enum.countP (fun kc => (ph.1 * a + kc.1) % muestreo a g == 0))).sum)

lemma enum_map_range {β : Type} (f : ℕ → β) (n : ℕ) :
    ((List.range n).map f).enum = (List.range n).map (fun i => (i, f i)) := by
  apply List.ext_getElem
  · simp [List.enum, List.enumFrom_length]
  · intro i h1 h2
    simp [List.enum, List.getElem_enumFrom]

lemma countP_flatMap {α β : Type} (l : List α) (f : α → List β) (p : β → Bool) :
    (l.flatMap f).countP p = (l.map (fun x => (f x).countP p)).sum := by
  induction l with
  | nil => simp
  | cons x xs ih => simp [List.flatMap_cons, List.countP_append, ih]

lemma countP_mod_range (m : ℕ) (hm : 0 < m) (n : ℕ) :
    (List.range n).countP (fun i => i % m == 0) = ceilDiv n m := by
  induction n with
  | zero =>
    simp only [List.range_zero, List.countP_nil]
    unfold ceilDiv
    rw [Nat.div_eq_of_lt (by omega)]
  | succ n ih =>
    rw [List.range_succ, List.countP_append, ih]
    simp only [List.countP_cons, List.countP_nil, List.length_nil]
    have key : ceilDiv (n + 1) m = ceilDiv n m + if n % m = 0 then 1 else 0 := by
      unfold ceilDiv
      have h1 : n + 1 + m - 1 = (n + m - 1) + 1 := by omega
      have h2 : n + m - 1 + 1 = n + m := by omega
      rw [h1, Nat.succ_div, h2]
      congr 1
      have hiff : m ∣ n + m ↔ n % m = 0 := by
        constructor
        · intro hd
          have := Nat.dvd_sub' hd (dvd_refl m)
          simp only [Nat.add_sub_cancel] at this
          omega
        · intro hmod
          exact Nat.dvd_add (Nat.dvd_of_mod_eq_zero hmod) (dvd_refl m)
      by_cases hd : n % m = 0
      · rw [if_pos (hiff.mpr hd), if_pos hd]
      · rw [if_neg (fun h => hd (hiff.mp h)), if_neg hd]
    rw [key]
    by_cases hd : n % m = 0 <;> simp [hd]

lemma range_flatMap_index (N a : ℕ) :
    (List.range N).flatMap (fun p => (List.range a).map (fun k => p * a + k)) =
      List.range (N * a) := by
  rw [range_flatMap_eq]
  conv_rhs => rw [← List.map_id (List.range (N * a))]
  apply List.map_congr_left
  intro j hj
  show j / a * a + j % a = j
  rw [Nat.mul_comm]
  exact Nat.div_add_mod j a

lemma muestreo_pos (a g : ℕ) (ha : 1 ≤ a) : 0 < muestreo a g := by
  have htot : 1 ≤ a ^ g := Nat.one_le_pow _ _ (by omega)
  unfold muestreo
  split
  · unfold ceilDiv ITEM_LIMIT
    omega
  · omega

lemma dibujados_eq (a g : ℕ) (ha : 1 ≤ a) (hg : 1 ≤ g) :
    dibujados a g = ceilDiv (a ^ g) (muestreo a g) := by
  have hm : 0 < muestreo a g := muestreo_pos a g ha
  have step1 : dibujados a g =
      ((List.range (padres a g)).map
        (fun p => (List.range a).countP (fun k => (p * a + k) % muestreo a g == 0))).sum := by
    show (((List.range (padres a g)).map
        (fun p => (List.range a).map (centro a g ROWS_TARGET p))).enum.map
      (fun ph => ph.2.enum.countP (fun kc => (ph.1 * a + kc.1) % muestreo a g == 0))).sum = _
    rw [enum_map_range, List.map_map]
    apply congrArg List.sum
    apply List.map_congr_left
    intro p hp
    show ((List.range a).map (centro a g ROWS_TARGET p)).enum.countP
        (fun kc => (p * a + kc.1) % muestreo a g == 0) = _
    rw [enum_map_range, List.countP_map]
    rfl
  have step2 : ((List.range (padres a g)).map
      (fun p => (List.range a).countP (fun k => (p * a + k) % muestreo a g == 0))).sum =
      ((List.range (padres a g)).flatMap (fun p => (List.range a).map (fun k => p * a + k))).countP
        (fun j => j % muestreo a g == 0) := by
    rw [countP_flatMap]
    apply congrArg List.sum
    apply List.map_congr_left
    intro p hp
    rw [List.countP_map]
    rfl
  rw [step1, step2, range_flatMap_index, countP_mod_range _ hm]
  congr 1
  show a ^ (g - 1) * a = a ^ g
  rw [← pow_succ]
  congr 1
  omega

/-- Claim C9: for every base `a ∈ [2,10]` and generation `g ≥ 1`, the number of
shapes drawn for the column equals `ceil(a^g / muestreo)` with
`muestreo = ceil(a^g / ITEM_LIMIT)` when over budget, hence never exceeds
`ITEM_LIMIT = 6000`; and whenever `a^g ≤ 6000`, `muestreo = 1` and all `a^g`
shapes are drawn. -/
theorem claim_C9 (a g : ℕ) (ha : 2 ≤ a) (ha' : a ≤ 10) (hg : 1 ≤ g) :
    dibujados a g = ceilDiv (a ^ g) (muestreo a g) ∧
    dibujados a g ≤ ITEM_LIMIT ∧
    (a ^ g ≤ ITEM_LIMIT → muestreo a g = 1 ∧ dibujados a g = a ^ g) := by
  have h1 : dibujados a g = ceilDiv (a ^ g) (muestreo a g) := dibujados_eq a g (by omega) hg
  have htot : 1 ≤ a ^ g := Nat.one_le_pow _ _ (by omega)
  have hsmall : a ^ g ≤ ITEM_LIMIT → muestreo a g = 1 ∧ dibujados a g = a ^ g := by
    intro hle
    have hm1 : muestreo a g = 1 := by
      unfold muestreo
      rw [if_neg (by omega)]
    refine ⟨hm1, ?_⟩
    rw [h1, hm1]
    unfold ceilDiv
    omega
  refine ⟨h1, ?_, hsmall⟩
  by_cases hc : a ^ g ≤ ITEM_LIMIT
  · rw [(hsmall hc).2]
    exact hc
  · push_neg at hc
    have hmv : muestreo a g = ceilDiv (a ^ g) ITEM_LIMIT := by
      unfold muestreo
      rw [if_pos hc]
    rw [h1, hmv]
    unfold ceilDiv ITEM_LIMIT
    unfold ITEM_LIMIT at hc
    set t := a ^ g with ht
    set q := (t + 6000 - 1) / 6000 with hq
    have hq1 : 1 ≤ q := by omega
    have hqt : t ≤ 6000 * q := by omega
    have hlt : (t + q - 1) / q < 6001 := by
      rw [Nat.div_lt_iff_lt_mul (by omega)]
      omega
    omega

theorem claim_C9_witness :
    (2 ≤ 3 ∧ 3 ≤ 10 ∧ 1 ≤ 3) ∧
    (dibujados 3 3 = ceilDiv (3 ^ 3) (muestreo 3 3) ∧
     dibujados 3 3 ≤ ITEM_LIMIT ∧
     (3 ^ 3 ≤ ITEM_LIMIT → muestreo 3 3 = 1 ∧ dibujados 3 3 = 3 ^ 3)) :=
  ⟨by norm_num, claim_C9 3 3 (by norm_num) (by norm_num) (by norm_num)⟩

/-! ### C10: the arrow-drawing loop, app.py lines 227-240 -/

/-- Source line `posibles = a**(g-1) * a` (line 230). -/
def posibles (a g : ℕ) : ℕ := a ^ (g - 1) * a

/-- The arrows drawn between the previous column `g-1` (at `x_offset = 0`) and
the current column `g` (at `x_offset = ancho_total(g-1) + x_gap_cols`), when
two columns are visible (`current ≥ 2`).  Guard (line 231):
`posibles <= ARROW_LIMIT and muestreo == 1`.  Loop (lines 232-240):
`for i_padre, padre_center in enumerate(prev_items): for (cx, cy) in
child_by_parent[i_padre]:` draws a `FancyArrowPatch` from
`(x_offset - x_gap_cols + px + tile_w/2, py)` to
`(x_offset + cx - tile_w/2, cy)`. -/
def flechas (a g : ℕ) : List ((ℚ × ℚ) × (ℚ × ℚ)) :=
  if posibles a g ≤ ARROW_LIMIT ∧ muestreo a g = 1 then
    (layout_columna_horizontal a (g - 1) ROWS_TARGET).item_centers.enum.flatMap (fun ip =>
      ((layout_columna_horizontal a g ROWS_TARGET).child_centers_by_parent.getD ip.1 []).map
        (fun c =>
          ((ancho_total a (g - 1) ROWS_TARGET + x_gap_cols - x_gap_cols + ip.2.1 +
              tile_w a g ROWS_TARGET / 2, ip.2.2),
           (ancho_total a (g - 1) ROWS_TARGET + x_gap_cols + c.1 -
              tile_w a g ROWS_TARGET / 2, c.2))))
  else []

lemma getD_of_lt {α : Type} (l : List α) (i : ℕ) (d : α) (h : i < l.length) :
    l.getD i d = l[i] := by
  rw [List.getD_eq_getElem?_getD, List.getElem?_eq_getElem h]
  rfl

lemma getD_map_range {β : Type} (f : ℕ → β) (n j : ℕ) (d : β) (hj : j < n) :
    ((List.range n).map f).getD j d = f j := by
  rw [getD_of_lt _ _ _ (by simpa using hj)]
  simp

lemma padres_mul (a g : ℕ) (hg : 1 ≤ g) : padres a g * a = a ^ g := by
  unfold padres
  rw [← pow_succ]
  congr 1
  omega

lemma item_centers_getD (a g t : ℕ) (i : ℕ) (hi : i < padres a g * a) :
    (layout_columna_horizontal a g t).item_centers.getD i (0, 0) =
      centro a g t (i / a) (i % a) := by
  rw [item_centers_eq]
  rw [getD_of_lt _ _ _ (by simpa using hi)]
  simp

lemma child_centers_getD (a g t : ℕ) (i : ℕ) (hi : i < padres a g) :
    (layout_columna_horizontal a g t).child_centers_by_parent.getD i [] =
      (List.range a).map (centro a g t i) := by
  show ((List.range (padres a g)).map (fun p => (List.range a).map (centro a g t p))).getD i [] = _
  rw [getD_of_lt _ _ _ (by simpa using hi)]
  simp

lemma flechas_eq (a g : ℕ) (ha : 1 ≤ a) (hg : 2 ≤ g)
    (hcond : posibles a g ≤ ARROW_LIMIT ∧ muestreo a g = 1) :
    flechas a g = (List.range (a ^ g)).map (fun j =>
      ((ancho_total a (g - 1) ROWS_TARGET + x_gap_cols - x_gap_cols +
          ((layout_columna_horizontal a (g - 1) ROWS_TARGET).item_centers.getD (j / a) (0, 0)).1 +
          tile_w a g ROWS_TARGET / 2,
        ((layout_columna_horizontal a (g - 1) ROWS_TARGET).item_centers.getD (j / a) (0, 0)).2),
       (ancho_total a (g - 1) ROWS_TARGET + x_gap_cols +
          (centro a g ROWS_TARGET (j / a) (j % a)).1 - tile_w a g ROWS_TARGET / 2,
        (centro a g ROWS_TARGET (j / a) (j % a)).2))) := by
  have hN : padres a (g - 1) * a = padres a g := by
    rw [padres_mul a (g - 1) (by omega)]
    unfold padres
    rfl
  unfold flechas
  rw [if_pos hcond]
  conv_lhs => rw [item_centers_eq a (g - 1) ROWS_TARGET, enum_map_range, List.flatMap_map, hN]
  have hstep : ∀ i ∈ List.range (padres a g),
      (((layout_columna_horizontal a g ROWS_TARGET).child_centers_by_parent.getD i []).map
        (fun c =>
          ((ancho_total a (g - 1) ROWS_TARGET + x_gap_cols - x_gap_cols +
              (centro a (g - 1) ROWS_TARGET (i / a) (i % a)).1 +
              tile_w a g ROWS_TARGET / 2,
            (centro a (g - 1) ROWS_TARGET (i / a) (i % a)).2),
           (ancho_total a (g - 1) ROWS_TARGET + x_gap_cols + c.1 -
              tile_w a g ROWS_TARGET / 2, c.2)))) =
      (List.range a).map (fun k =>
        ((ancho_total a (g - 1) ROWS_TARGET + x_gap_cols - x_gap_cols +
            ((layout_columna_horizontal a (g - 1) ROWS_TARGET).item_centers.getD i (0, 0)).1 +
            tile_w a g ROWS_TARGET / 2,
          ((layout_columna_horizontal a (g - 1) ROWS_TARGET).item_centers.getD i (0, 0)).2),
         (ancho_total a (g - 1) ROWS_TARGET + x_gap_cols +
            (centro a g ROWS_TARGET i k).1 - tile_w a g ROWS_TARGET / 2,
          (centro a g ROWS_TARGET i k).2))) := by
    intro i hi
    rw [List.mem_range] at hi
    rw [child_centers_getD a g ROWS_TARGET i hi, List.map_map]
    rw [item_centers_getD a (g - 1) ROWS_TARGET i (by rw [hN]; exact hi)]
    rfl
  rw [List.flatMap_congr hstep]
  rw [range_flatMap_eq
    (fun i k =>
      ((ancho_total a (g - 1) ROWS_TARGET + x_gap_cols - x_gap_cols +
          ((layout_columna_horizontal a (g - 1) ROWS_TARGET).item_centers.getD i (0, 0)).1 +
          tile_w a g ROWS_TARGET / 2,
        ((layout_columna_horizontal a (g - 1) ROWS_TARGET).item_centers.getD i (0, 0)).2),
       (ancho_total a (g - 1) ROWS_TARGET + x_gap_cols +
          (centro a g ROWS_TARGET i k).1 - tile_w a g ROWS_TARGET / 2,
        (centro a g ROWS_TARGET i k).2)))
    (padres a g) a]
  rw [padres_mul a g (by omega)]

lemma muestreo_eq_one_of_arrows (a g : ℕ) (h : a ^ g ≤ ARROW_LIMIT) : muestreo a g = 1 := by
  unfold muestreo
  rw [if_neg]
  unfold ITEM_LIMIT
  unfold ARROW_LIMIT at h
  omega

lemma posibles_eq (a g : ℕ) (hg : 1 ≤ g) : posibles a g = a ^ g :=
  padres_mul a g hg

/-- Claim C10: arrows between the previous column `g-1` and the current column
`g` are drawn iff `a^g ≤ ARROW_LIMIT = 350` and no sampling is active
(`muestreo = 1`); when drawn there is exactly one arrow per child — `a^g`
arrows in total — and arrow `j` goes from the centre of its parent (point
`j / a` of generation `g-1`, right tile edge) to that child (point `j` of
generation `g`, left tile edge). -/
theorem claim_C10 (a g : ℕ) (ha : 2 ≤ a) (ha' : a ≤ 10) (hg : 2 ≤ g) :
    (flechas a g ≠ [] ↔ a ^ g ≤ ARROW_LIMIT ∧ muestreo a g = 1) ∧
    (a ^ g ≤ ARROW_LIMIT → (flechas a g).length = a ^ g) ∧
    (a ^ g ≤ ARROW_LIMIT → ∀ j, j < a ^ g →
      (flechas a g).getD j ((0, 0), (0, 0)) =
        ((ancho_total a (g - 1) ROWS_TARGET + x_gap_cols - x_gap_cols +
            ((layout_columna_horizontal a (g - 1) ROWS_TARGET).item_centers.getD (j / a)
              (0, 0)).1 + tile_w a g ROWS_TARGET / 2,
          ((layout_columna_horizontal a (g - 1) ROWS_TARGET).item_centers.getD (j / a)
            (0, 0)).2),
         (ancho_total a (g - 1) ROWS_TARGET + x_gap_cols +
            (((layout_columna_horizontal a g ROWS_TARGET).child_centers_by_parent.getD (j / a)
              []).getD (j % a) (0, 0)).1 - tile_w a g ROWS_TARGET / 2,
          (((layout_columna_horizontal a g ROWS_TARGET).child_centers_by_parent.getD (j / a)
            []).getD (j % a) (0, 0)).2))) := by
  have hpe : posibles a g = a ^ g := posibles_eq a g (by omega)
  have hlen : ∀ hc : a ^ g ≤ ARROW_LIMIT, (flechas a g).length = a ^ g := by
    intro hc
    rw [flechas_eq a g (by omega) hg ⟨by omega, muestreo_eq_one_of_arrows a g hc⟩]
    simp
  refine ⟨⟨?_, ?_⟩, hlen, ?_⟩
  · intro hne
    by_contra hcon
    have : ¬(posibles a g ≤ ARROW_LIMIT ∧ muestreo a g = 1) := by
      intro hand
      exact hcon ⟨by omega, hand.2⟩
    apply hne
    unfold flechas
    rw [if_neg this]
  · rintro ⟨hc, -⟩
    have h1 : 0 < (flechas a g).length := by
      rw [hlen hc]
      exact Nat.pos_pow_of_pos g (by omega)
    exact List.ne_nil_of_length_pos h1
  · intro hc j hj
    have hcond : posibles a g ≤ ARROW_LIMIT ∧ muestreo a g = 1 :=
      ⟨by omega, muestreo_eq_one_of_arrows a g hc⟩
    rw [flechas_eq a g (by omega) hg hcond]
    have hja : j / a < padres a g := by
      have hmul : padres a g * a = a ^ g := padres_mul a g (by omega)
      rw [Nat.div_lt_iff_lt_mul (by omega)]
      omega
    have hka : j % a < a := Nat.mod_lt _ (by omega)
    rw [getD_map_range _ _ _ _ hj]
    rw [child_centers_getD a g ROWS_TARGET (j / a) hja]
    rw [getD_map_range _ _ _ _ hka]

theorem claim_C10_witness :
    (2 ≤ 2 ∧ 2 ≤ 10 ∧ 2 ≤ 2) ∧
    ((flechas 2 2 ≠ [] ↔ 2 ^ 2 ≤ ARROW_LIMIT ∧ muestreo 2 2 = 1) ∧
     (2 ^ 2 ≤ ARROW_LIMIT → (flechas 2 2).length = 2 ^ 2) ∧
     (2 ^ 2 ≤ ARROW_LIMIT → ∀ j, j < 2 ^ 2 →
       (flechas 2 2).getD j ((0, 0), (0, 0)) =
         ((ancho_total 2 (2 - 1) ROWS_TARGET + x_gap_cols - x_gap_cols +
             ((layout_columna_horizontal 2 (2 - 1) ROWS_TARGET).item_centers.getD (j / 2)
               (0, 0)).1 + tile_w 2 2 ROWS_TARGET / 2,
           ((layout_columna_horizontal 2 (2 - 1) ROWS_TARGET).item_centers.getD (j / 2)
             (0, 0)).2),
          (ancho_total 2 (2 - 1) ROWS_TARGET + x_gap_cols +
             (((layout_columna_horizontal 2 2 ROWS_TARGET).child_centers_by_parent.getD (j / 2)
               []).getD (j % 2) (0, 0)).1 - tile_w 2 2 ROWS_TARGET / 2,
           (((layout_columna_horizontal 2 2 ROWS_TARGET).child_centers_by_parent.getD (j / 2)
             []).getD (j % 2) (0, 0)).2)))) :=
  ⟨by norm_num, claim_C10 2 2 (by norm_num) (by norm_num) (by norm_num)⟩

/-! ### C2: the tiles of one column never overlap

A tile is the axis-aligned rectangle of width `tile_w` and height `tile_h`
centred at an entry of `item_centers` (drawn at app.py lines 211-214).  Two
tiles do not overlap when their open interiors are disjoint. -/

/-- The open axis-aligned rectangle of width `w` and height `h` centred
at `c`. -/
def rect (w h : ℚ) (c : ℚ × ℚ) : Set (ℚ × ℚ) :=
  {q | |q.1 - c.1| < w / 2 ∧ |q.2 - c.2| < h / 2}

/-- Two tiles centred at `c` and `d` do not overlap: their open interiors are
disjoint. -/
def sin_solape (w h : ℚ) (c d : ℚ × ℚ) : Prop :=
  rect w h c ∩ rect w h d = ∅

lemma sep_of_abs (w h : ℚ) (c d : ℚ × ℚ)
    (hsep : w ≤ |c.1 - d.1| ∨ h ≤ |c.2 - d.2|) : sin_solape w h c d := by
  unfold sin_solape
  apply Set.eq_empty_iff_forall_not_mem.mpr
  intro q hq
  simp only [rect, Set.mem_inter_iff, Set.mem_setOf_eq] at hq
  obtain ⟨⟨h1a, h1b⟩, ⟨h2a, h2b⟩⟩ := hq
  rcases hsep with hs | hs
  · have htri := abs_sub_le c.1 q.1 d.1
    rw [abs_sub_comm c.1 q.1] at htri
    linarith
  · have htri := abs_sub_le c.2 q.2 d.2
    rw [abs_sub_comm c.2 q.2] at htri
    linarith

lemma tile_h_pos (a g t : ℕ) : 0 < tile_h a g t :=
  lt_of_lt_of_le (by norm_num) (le_max_left _ _)

lemma tile_w_eq (a g t : ℕ) : tile_w a g t = tile_h a g t := rfl

lemma gap_item_pos : (0 : ℚ) < gap_item := by norm_num [gap_item]

lemma gap_grupo_x_pos : (0 : ℚ) < gap_grupo_x := by norm_num [gap_grupo_x]

lemma gap_grupo_y_pos : (0 : ℚ) < gap_grupo_y := by norm_num [gap_grupo_y]

lemma centro_fst (a g t p k : ℕ) :
    (centro a g t p k).1 =
      ((p % grupos_por_fila a g t : ℕ) : ℚ) * (ancho_grupo a g t + gap_grupo_x) +
        (k : ℚ) * (tile_w a g t + gap_item) + tile_w a g t / 2 := rfl

lemma centro_snd (a g t p k : ℕ) :
    (centro a g t p k).2 =
      ((p / grupos_por_fila a g t : ℕ) : ℚ) * (tile_h a g t + gap_grupo_y) +
        tile_h a g t / 2 := rfl

lemma one_le_abs_cast_sub (m n : ℕ) (h : m ≠ n) : (1 : ℚ) ≤ |(m : ℚ) - (n : ℚ)| := by
  rcases h.lt_or_lt with hlt | hlt
  · have hc : (m : ℚ) + 1 ≤ (n : ℚ) := by exact_mod_cast hlt
    rw [abs_sub_comm, abs_of_nonneg (by linarith)]
    linarith
  · have hc : (n : ℚ) + 1 ≤ (m : ℚ) := by exact_mod_cast hlt
    rw [abs_of_nonneg (by linarith)]
    linarith

/-- Two distinct children of one column get centres at least one full tile
apart along some axis. -/
lemma centro_sep (a g t : ℕ) (p1 k1 p2 k2 : ℕ) (hk1 : k1 < a) (hk2 : k2 < a)
    (hne : ¬(p1 = p2 ∧ k1 = k2)) :
    tile_w a g t ≤ |(centro a g t p1 k1).1 - (centro a g t p2 k2).1| ∨
    tile_h a g t ≤ |(centro a g t p1 k1).2 - (centro a g t p2 k2).2| := by
  have ha1 : 1 ≤ a := by omega
  have haq : (1 : ℚ) ≤ (a : ℚ) := by exact_mod_cast ha1
  have hw : 0 < tile_h a g t := tile_h_pos a g t
  set G := grupos_por_fila a g t with hG
  set w := tile_h a g t with hwdef
  have hAG : ancho_grupo a g t = (a : ℚ) * w + ((a : ℚ) - 1) * gap_item := rfl
  have hAGpos : 0 < ancho_grupo a g t + gap_grupo_x := by
    rw [hAG]
    nlinarith [gap_item_pos, gap_grupo_x_pos]
  by_cases hfila : p1 / G = p2 / G
  · by_cases hcol : p1 % G = p2 % G
    · -- same parent, so the children indices differ
      have hp12 : p1 = p2 := by
        rw [← Nat.div_add_mod p1 G, ← Nat.div_add_mod p2 G, hfila, hcol]
      have hk : k1 ≠ k2 := fun h => hne ⟨hp12, h⟩
      left
      rw [tile_w_eq, centro_fst, centro_fst, tile_w_eq, hcol]
      have key : ((p2 % G : ℕ) : ℚ) * (ancho_grupo a g t + gap_grupo_x) +
            (k1 : ℚ) * (w + gap_item) + w / 2 -
          (((p2 % G : ℕ) : ℚ) * (ancho_grupo a g t + gap_grupo_x) +
            (k2 : ℚ) * (w + gap_item) + w / 2) =
          ((k1 : ℚ) - (k2 : ℚ)) * (w + gap_item) := by ring
      rw [key, abs_mul]
      have h1 : (1 : ℚ) ≤ |(k1 : ℚ) - (k2 : ℚ)| := one_le_abs_cast_sub k1 k2 hk
      have h2 : (0 : ℚ) < w + gap_item := by linarith [gap_item_pos]
      rw [abs_of_pos h2]
      have hb := mul_le_mul_of_nonneg_right h1 (le_of_lt h2)
      rw [one_mul] at hb
      linarith [gap_item_pos]
    · -- same row, different group column
      left
      rw [tile_w_eq, centro_fst, centro_fst, tile_w_eq]
      have key : ∀ ra rb ka kb : ℕ, ka < a → kb < a → ra < rb →
          w ≤ ((rb : ℚ) * (ancho_grupo a g t + gap_grupo_x) + (kb : ℚ) * (w + gap_item) +
              w / 2) -
            ((ra : ℚ) * (ancho_grupo a g t + gap_grupo_x) + (ka : ℚ) * (w + gap_item) +
              w / 2) := by
        intro ra rb ka kb hka hkb hrab
        have h1 : (1 : ℚ) ≤ (rb : ℚ) - (ra : ℚ) := by
          have : (ra : ℚ) + 1 ≤ (rb : ℚ) := by exact_mod_cast hrab
          linarith
        have h2 : -((a : ℚ) - 1) ≤ (kb : ℚ) - (ka : ℚ) := by
          have hka' : (ka : ℚ) + 1 ≤ (a : ℚ) := by exact_mod_cast hka
          have hkb' : (0 : ℚ) ≤ (kb : ℚ) := by positivity
          linarith
        have h3 : (0 : ℚ) < w + gap_item := by linarith [gap_item_pos]
        have hb1 : ancho_grupo a g t + gap_grupo_x ≤
            ((rb : ℚ) - (ra : ℚ)) * (ancho_grupo a g t + gap_grupo_x) :=
          le_mul_of_one_le_left (le_of_lt hAGpos) h1
        have hb2 : -((a : ℚ) - 1) * (w + gap_item) ≤
            ((kb : ℚ) - (ka : ℚ)) * (w + gap_item) :=
          mul_le_mul_of_nonneg_right h2 (le_of_lt h3)
        have hexp : ancho_grupo a g t + gap_grupo_x - ((a : ℚ) - 1) * (w + gap_item) =
            w + gap_grupo_x := by
          rw [hAG]
          ring
        nlinarith [gap_grupo_x_pos]
      rcases lt_or_gt_of_ne hcol with hlt | hlt
      · rw [abs_sub_comm]
        have := key (p1 % G) (p2 % G) k1 k2 hk1 hk2 hlt
        rw [abs_of_nonneg (by linarith)]
        linarith
      · have := key (p2 % G) (p1 % G) k2 k1 hk2 hk1 hlt
        rw [abs_of_nonneg (by linarith)]
        linarith
  · -- different rows
    right
    rw [centro_snd, centro_snd]
    have key : ((p1 / G : ℕ) : ℚ) * (w + gap_grupo_y) + w / 2 -
        (((p2 / G : ℕ) : ℚ) * (w + gap_grupo_y) + w / 2) =
        (((p1 / G : ℕ) : ℚ) - ((p2 / G : ℕ) : ℚ)) * (w + gap_grupo_y) := by ring
    rw [key, abs_mul]
    have h1 : (1 : ℚ) ≤ |((p1 / G : ℕ) : ℚ) - ((p2 / G : ℕ) : ℚ)| :=
      one_le_abs_cast_sub _ _ hfila
    have h2 : (0 : ℚ) < w + gap_grupo_y := by linarith [gap_grupo_y_pos]
    rw [abs_of_pos h2]
    have hb := mul_le_mul_of_nonneg_right h1 (le_of_lt h2)
    rw [one_mul] at hb
    linarith [gap_grupo_y_pos]

lemma layout_tile_w (a g t : ℕ) :
    (layout_columna_horizontal a g t).tile_w = tile_w a g t := rfl

lemma layout_tile_h (a g t : ℕ) :
    (layout_columna_horizontal a g t).tile_h = tile_h a g t := rfl

/-- Claim C2: for every base `a ∈ [2,10]` and generation `g ≥ 1`, the positions
returned by `layout_columna_horizontal`, taken as axis-aligned rectangles of
width `tile_w` and height `tile_h` centred at each returned `(x, y)`, are
pairwise non-overlapping (their open interiors are exactly disjoint in the
rational model, hence non-overlapping within floating-point tolerance). -/
theorem claim_C2 (a g : ℕ) (ha : 2 ≤ a) (ha' : a ≤ 10) (hg : 1 ≤ g) :
    (layout_columna_horizontal a g ROWS_TARGET).item_centers.Pairwise
      (sin_solape (layout_columna_horizontal a g ROWS_TARGET).tile_w
        (layout_columna_horizontal a g ROWS_TARGET).tile_h) := by
  rw [item_centers_eq, List.pairwise_map]
  apply (List.pairwise_lt_range _).imp
  intro i j hij
  rw [layout_tile_w, layout_tile_h]
  apply sep_of_abs
  apply centro_sep
  · exact Nat.mod_lt _ (by omega)
  · exact Nat.mod_lt _ (by omega)
  · rintro ⟨hdiv, hmod⟩
    have : i = j := by
      rw [← Nat.div_add_mod i a, ← Nat.div_add_mod j a, hdiv, hmod]
    omega

theorem claim_C2_witness :
    (2 ≤ 2 ∧ 2 ≤ 10 ∧ 1 ≤ 1) ∧
    (layout_columna_horizontal 2 1 ROWS_TARGET).item_centers.Pairwise
      (sin_solape (layout_columna_horizontal 2 1 ROWS_TARGET).tile_w
        (layout_columna_horizontal 2 1 ROWS_TARGET).tile_h) :=
  ⟨by norm_num, claim_C2 2 1 (by norm_num) (by norm_num) (by norm_num)⟩

end PotenciaApp
